import Mathlib

/-!
Verification of the webFET streaming aggregation pipeline.

This file is a shallow embedding of the repository's Python scripts
`scripts/stream_features_h3.py` and `scripts/validate_h3_coverage.py`.

Modelling conventions:
* Python floats are modelled as exact rationals (`ℚ`); the claims under
  study concern which observations contribute where, not floating-point
  rounding, and `max`/`+` on rationals mirror the float operations.
* External library calls (ISO-8601 parsing via `datetime.fromisoformat`,
  H3 cell indexing, pyproj transformers, boundary reconstruction) are
  fields of a `Ctx` record: the theorems quantify over any behaviour of
  these libraries, and witnesses instantiate them concretely.
* The UTC day label "YYYY-MM-DD" produced by `datetime.date.isoformat` is
  represented by the integer UTC day number `⌊ts / 86400⌋`, of which the
  ISO string is a fixed bijective rendering; `day_bucket` computes the
  day start `86400 * ⌊ts / 86400⌋` exactly as midnight UTC of the date
  containing `ts` (POSIX time has no leap seconds).
* Python dicts are modelled as association lists with first-match lookup
  and replace-or-append assignment; Python `or` is modelled with the
  usual truthiness rules.
* A Python exception that the script does not catch is modelled as
  `Except.error ()`; input domains are restricted to feature collections
  whose `features` entries are JSON objects (a non-object entry makes the
  script raise inside `compute_time_floor_range` before the per-feature
  loop even runs, so such inputs are outside every claim's scope).
-/

/-- A Python/JSON scalar value as it appears in a feature's `properties`
dict.  `zoomHint` stands for the small `{"minzoom": _}` /
`{"minzoom": _, "maxzoom": _}` dict the scripts store under the
`tippecanoe` key (its inner structure is never read back). -/
inductive PVal where
  | null
  | bool (b : Bool)
  | num (q : ℚ)
  | str (s : String)
  | zoomHint (minzoom : ℕ) (maxzoom : Option ℕ)
  deriving DecidableEq, Repr

/-- Python truthiness for `PVal`. -/
def PVal.truthy : PVal → Bool
  | .null => false
  | .bool b => b
  | .num q => decide (q ≠ 0)
  | .str s => decide (s ≠ "")
  | .zoomHint _ _ => true

/-- Python `a or b`. -/
def pyOr (a b : PVal) : PVal := if a.truthy then a else b

/-- Digit run value, e.g. for `['1','2']` the number 12. -/
def digitsVal (cs : List Char) : ℕ :=
  cs.foldl (fun a c => a * 10 + (c.toNat - 48)) 0

/-- Parse an unsigned decimal literal `digits[.digits]` (at least one
digit overall), the core of Python `float` on strings.  Exponent, `inf`
and `nan` forms are omitted: no claim depends on them. -/
def parseFloatCore (cs : List Char) : Option ℚ :=
  let ip := cs.takeWhile Char.isDigit
  let rest := cs.dropWhile Char.isDigit
  match rest with
  | [] => if ip.isEmpty then none else some (digitsVal ip : ℚ)
  | '.' :: rest2 =>
      let fp := rest2.takeWhile Char.isDigit
      let rest3 := rest2.dropWhile Char.isDigit
      if rest3.isEmpty && (!ip.isEmpty || !fp.isEmpty) then
        some ((digitsVal ip : ℚ) + (digitsVal fp : ℚ) / ((10 : ℚ) ^ fp.length))
      else none
  | _ => none

/-- Strip leading and trailing whitespace from a character list (the
`str.strip()` Python `float` performs). -/
def trimChars (cs : List Char) : List Char :=
  ((cs.dropWhile Char.isWhitespace).reverse.dropWhile Char.isWhitespace).reverse

/-- Python `float(s)` on a string: optional sign around a decimal
literal, surrounding whitespace stripped. -/
def parseFloatStr (s : String) : Option ℚ :=
  match trimChars s.toList with
  | '-' :: cs => (parseFloatCore cs).map Neg.neg
  | '+' :: cs => parseFloatCore cs
  | cs => parseFloatCore cs

/-- Python `float(v)` on a property value; `none` models the `ValueError`
or `TypeError` the call raises on unconvertible input. -/
def pyFloat : PVal → Option ℚ
  | .num q => some q
  | .bool b => some (if b then 1 else 0)
  | .str s => parseFloatStr s
  | .null => none
  | .zoomHint _ _ => none

/-- Python `str(v)` (used only to build dict keys, so the exact numeric
rendering is irrelevant beyond injectivity on the values that occur). -/
def pyStr : PVal → String
  | .str s => s
  | .num q => if q.den = 1 then toString q.num else toString q
  | .bool b => if b then "True" else "False"
  | .null => "None"
  | .zoomHint _ _ => "dict"

/-- A Python dict of feature properties: association list, unique keys,
first-match lookup. -/
abbrev Props := List (String × PVal)

/-- `props.get(k)`: returns `PVal.null` both for an absent key and for an
explicit JSON `null` value, matching Python's `dict.get` default. -/
def pget : Props → String → PVal
  | [], _ => .null
  | (k0, v) :: rest, k => if k0 = k then v else pget rest k

/-- `k in props` (key membership). -/
def hasKey : Props → String → Bool
  | [], _ => false
  | (k0, _) :: rest, k => k0 = k || hasKey rest k

/-- `props[k] = v`: replace the first binding of `k`, or append one. -/
def pset : Props → String → PVal → Props
  | [], k, v => [(k, v)]
  | (k0, v0) :: rest, k, v =>
      if k0 = k then (k, v) :: rest else (k0, v0) :: pset rest k v

/-- A JSON coordinate tree as found under `geometry.coordinates`:
numbers, strings, nulls and arbitrarily nested arrays. -/
inductive PyArr where
  | num (q : ℚ)
  | str (s : String)
  | null
  | arr (items : List PyArr)
/-- A GeoJSON geometry object (the two fields the scripts read). -/
structure Geometry where
  gtype : Option String
  coordinates : Option PyArr

/-- One member of a file's `features` list, restricted to JSON objects
(see the file header for why non-objects are out of scope). -/
structure Feature where
  properties : Option Props
  geometry : Option Geometry

/-- `feature.get("properties") or {}`. -/
def propsOf (f : Feature) : Props := f.properties.getD []

/-- External library behaviour the scripts call into.  The theorems hold
for every instantiation. -/
structure Ctx where
  /-- `datetime.fromisoformat(raw.replace("Z", "+00:00"))` followed by
  `.replace(tzinfo=utc).timestamp()`; `none` models the parse exception. -/
  parseISO : String → Option ℚ
  /-- `datetime.fromtimestamp(ts, utc).isoformat().replace(...)`. -/
  isoOfTs : ℚ → String
  /-- The `h3_cell` wrapper: `h3.latlng_to_cell(lat, lon, res)` with the
  script's `try/except` collapsed into `Option`. -/
  h3cell : ℚ → ℚ → ℕ → Option String
  /-- `pyproj.Transformer.from_crs(f"EPSG:{epsg}", "EPSG:4326",
  always_xy=True).transform` as a point map. -/
  mkTransformer : ℕ → (ℚ × ℚ → ℚ × ℚ)
  /-- `h3.cell_to_boundary(cell)`, a list of (lat, lng) vertices. -/
  cellBoundary : String → List (ℚ × ℚ)

/-- `parse_timestamp(raw)` from `stream_features_h3.py`: non-strings and
the empty string resolve to nothing; otherwise the raw string is kept and
ISO parsing is attempted. -/
def parse_timestamp (ctx : Ctx) : PVal → Option String × Option ℚ
  | .str s => if s = "" then (none, none) else (some s, ctx.parseISO s)
  | _ => (none, none)

/-- The timestamp fallback chain
`props.get("time_floor") or props.get("time") or props.get("timestamp")`. -/
def timeChain (p : Props) : PVal :=
  pyOr (pyOr (pget p "time_floor") (pget p "time")) (pget p "timestamp")

/-- `day_bucket(ts)`: UTC day number (standing for the ISO label) and the
day's start/end epoch seconds. -/
def day_bucket (ts : ℚ) : ℤ × ℚ × ℚ :=
  (⌊ts / 86400⌋, 86400 * (⌊ts / 86400⌋ : ℚ), 86400 * (⌊ts / 86400⌋ : ℚ) + 86400)

/-- `normalize_fros(value)`: unparseable values and the ≤ −900 sentinel
range are treated as missing. -/
def normalize_fros (value : PVal) : Option ℚ :=
  match pyFloat value with
  | none => none
  | some q => if q ≤ -900 then none else some q

/-- The `--end-date` handling in `main`: the inclusive end date becomes
the exclusive midnight of the following day. -/
def end_bound (endDateTs : ℚ) : ℚ := endDateTs + 86400

/-- `re.search` of the pattern `EPSG::?(\d+)` at one fixed position:
the literal `EPSG:`, an optional second `:`, then at least one digit. -/
def epsgAt : List Char → Option ℕ
  | 'E' :: 'P' :: 'S' :: 'G' :: ':' :: rest =>
      let rest' := match rest with
        | ':' :: r => r
        | r => r
      let ds := rest'.takeWhile Char.isDigit
      if ds.isEmpty then none else some (digitsVal ds)
  | _ => none

/-- `CRS_RE.search(crs_name)`: first position where the pattern matches. -/
def epsgSearch : List Char → Option ℕ
  | [] => none
  | c :: rest =>
      match epsgAt (c :: rest) with
      | some n => some n
      | none => epsgSearch rest

/-- The shape of a GeoJSON `crs` member as the scripts read it: absent
(or any falsy value), an object carrying `properties.name` and/or `name`,
or a bare string. -/
inductive CrsVal where
  | absent
  | obj (propsName : Option String) (name : Option String)
  | strv (s : String)

/-- Lines 113–119 of `stream_features_h3.py`: extract the declaration
string, with Python truthiness (`props.get("name") or crs.get("name")`;
a falsy bare string falls back to the empty-dict branch). -/
def crsNameOf : CrsVal → Option String
  | .absent => none
  | .obj pn n =>
      match pn with
      | some s => if s ≠ "" then some s else
          match n with
          | some t => if t ≠ "" then some t else none
          | none => none
      | none =>
          match n with
          | some t => if t ≠ "" then some t else none
          | none => none
  | .strv s => if s = "" then none else some s

/-- `build_transformer(crs_name)`: no declaration, no pattern match, or
EPSG 4326 all mean "no transform needed". -/
def build_transformer (ctx : Ctx) : Option String → Option (ℚ × ℚ → ℚ × ℚ)
  | none => none
  | some s =>
      if s = "" then none else
      match epsgSearch s.toList with
      | none => none
      | some epsg => if epsg = 4326 then none else some (ctx.mkTransformer epsg)

mutual

/-- `transform_coords(coords, transformer)`: a nonempty array whose first
element is a number is a leaf pair `[x, y, *tail]` (fewer than two
elements, or a non-numeric second element, make the untyped code raise);
other arrays recurse; non-arrays pass through. -/
def transform_coords (t : ℚ × ℚ → ℚ × ℚ) : PyArr → Option PyArr
  | .num q => some (.num q)
  | .str s => some (.str s)
  | .null => some .null
  | .arr items =>
      match items with
      | .num x :: rest =>
          match rest with
          | .num y :: tail =>
              let p := t (x, y)
              some (.arr (.num p.1 :: .num p.2 :: tail))
          | _ => none
      | _ => (transform_coords_list t items).map .arr

/-- Elementwise `transform_coords` over a coordinate array. -/
def transform_coords_list (t : ℚ × ℚ → ℚ × ℚ) : List PyArr → Option (List PyArr)
  | [] => some []
  | c :: cs =>
      match transform_coords t c with
      | none => none
      | some c' => (transform_coords_list t cs).map (c' :: ·)

end

/-- `transform_geometry(geom, transformer)`. -/
def transform_geometry (t : ℚ × ℚ → ℚ × ℚ) (g : Geometry) : Option Geometry :=
  match g.coordinates with
  | none => some g
  | some coords => (transform_coords t coords).map (fun c => { g with coordinates := some c })

/-- `ID_RE.match(path.name)` for the pattern `^gdf_(\d+)\.geojson$`:
the captured digit group, when the whole name matches. -/
def idOfName (name : String) : Option String :=
  let cs := name.toList
  match cs with
  | 'g' :: 'd' :: 'f' :: '_' :: rest =>
      let ds := rest.takeWhile Char.isDigit
      let tail := rest.dropWhile Char.isDigit
      if ds.isEmpty then none
      else if tail = ['.', 'g', 'e', 'o', 'j', 's', 'o', 'n'] then some (String.mk ds)
      else none
  | _ => none

/-- `compute_time_floor_range(data)`: min/max resolved timestamp over the
file's features, with their ISO renderings. -/
def compute_time_floor_range (ctx : Ctx) (feats : List Feature) :
    Option (String × ℚ × String × ℚ) :=
  let tss := feats.filterMap (fun f => (parse_timestamp ctx (timeChain (propsOf f))).2)
  match tss with
  | [] => none
  | t :: rest =>
      let mn := rest.foldl min t
      let mx := rest.foldl max t
      some (ctx.isoOfTs mn, mn, ctx.isoOfTs mx, mx)

/-- The per-feature id/time-range attachment step of `iter_features`
(lines 130–139): when the filename encodes an id and the feature has no
`id_fire_event` key, attach the file id and, when available, the file's
time range. -/
def attach_file_id (fid : Option String) (range : Option (String × ℚ × String × ℚ))
    (f : Feature) : Feature :=
  match fid with
  | none => f
  | some i =>
      if hasKey (propsOf f) "id_fire_event" then f
      else
        let p := pset (propsOf f) "id_fire_event" (.str i)
        let p := match range with
          | some (mnIso, mn, mxIso, mx) =>
              let p := pset p "time_min_ts" (.num mn)
              let p := pset p "time_max_ts" (.num mx)
              let p := pset p "time_min" (.str mnIso)
              pset p "time_max" (.str mxIso)
          | none => p
        { f with properties := some p }

/-- A parsed source file: name, declared CRS, feature list.  A file whose
JSON fails to load is represented by `parsed = false` and skipped, as in
the script's per-file `try/except`. -/
structure SourceFile where
  name : String
  parsed : Bool
  crs : CrsVal
  features : List Feature

/-- The per-feature body of `iter_features`: attach the file id/range,
then reproject when the file declared a non-geographic CRS.  A raised
transform error aborts the generator. -/
def process_one (t : Option (ℚ × ℚ → ℚ × ℚ)) (fid : Option String)
    (range : Option (String × ℚ × String × ℚ)) (f : Feature) : Except Unit Feature :=
  let f1 := attach_file_id fid range f
  match t with
  | none => .ok f1
  | some tr =>
      match f1.geometry with
      | none => .ok f1
      | some g =>
          match transform_geometry tr g with
          | none => .error ()
          | some g' => .ok { f1 with geometry := some g' }

/-- Sequence a list of per-feature results, stopping at the first raised
error, as a generator would. -/
def seqFeatures : List (Except Unit Feature) → Except Unit (List Feature)
  | [] => .ok []
  | .error e :: _ => .error e
  | .ok f :: rest => (seqFeatures rest).map (f :: ·)

/-- `iter_features` restricted to one source file. -/
def iter_file (ctx : Ctx) (file : SourceFile) : Except Unit (List Feature) :=
  if !file.parsed then .ok [] else
  let t := build_transformer ctx (crsNameOf file.crs)
  let fid := idOfName file.name
  let range := compute_time_floor_range ctx file.features
  seqFeatures (file.features.map (process_one t fid range))

/-- `iter_features(data_dir)`: files in lexical name order, unreadable
files skipped, features yielded per file. -/
def iter_features (ctx : Ctx) (files : List SourceFile) : Except Unit (List Feature) :=
  (files.mergeSort (fun a b => a.name ≤ b.name)).foldr
    (fun file acc =>
      match iter_file ctx file, acc with
      | .ok fs, .ok rest => .ok (fs ++ rest)
      | .error e, _ => .error e
      | _, .error e => .error e)
    (.ok [])

mutual

/-- The inner `flatten` of `extract_lonlat`: collect exactly-two-element
arrays of numbers as leaf pairs, recurse into other arrays, ignore
everything else. -/
def flatten_pairs : PyArr → List (ℚ × ℚ)
  | .num _ => []
  | .str _ => []
  | .null => []
  | .arr items => flatten_pairs_list items

/-- `flatten` applied to each member of an array. -/
def flatten_pairs_list : List PyArr → List (ℚ × ℚ)
  | [] => []
  | item :: rest =>
      match item with
      | .arr [.num x, .num y] => (x, y) :: flatten_pairs_list rest
      | .arr items => flatten_pairs_list items ++ flatten_pairs_list rest
      | _ => flatten_pairs_list rest

end

/-- `float` applied to a coordinate-array element (the `try` around
`float(coords[0]), float(coords[1])`). -/
def pyFloatArr : PyArr → Option ℚ
  | .num q => some q
  | .str s => parseFloatStr s
  | .null => none
  | .arr _ => none

/-- `extract_lonlat(feature)`: the point itself for a `Point`, otherwise
the arithmetic mean of all leaf coordinate pairs. -/
def extract_lonlat (f : Feature) : Option (ℚ × ℚ) :=
  let geom := f.geometry.getD { gtype := none, coordinates := none }
  if geom.gtype = some "Point" then
    match geom.coordinates with
    | some (.arr (a :: b :: _)) =>
        match a, b with
        | .null, _ => none
        | _, .null => none
        | a, b =>
            match pyFloatArr a, pyFloatArr b with
            | some x, some y => some (x, y)
            | _, _ => none
    | _ => none
  else
    let pairs := match geom.coordinates with
      | some c => flatten_pairs c
      | none => []
    match pairs with
    | [] => none
    | _ =>
        some ((pairs.map Prod.fst).sum / pairs.length, (pairs.map Prod.snd).sum / pairs.length)

/-- A `load_stats_map` entry: the four fields stored per fire-event id. -/
structure StatsEntry where
  time_start : Option String
  time_end : Option String
  time_start_ts : Option ℚ
  time_end_ts : Option ℚ
  deriving DecidableEq

/-- The field-by-field overlay of lines 263–270 of
`stream_features_h3.py` (`is not None` guards for the epoch fields,
truthiness guards for the ISO strings). -/
def apply_stats (st : StatsEntry) (p : Props) : Props :=
  let p := match st.time_start_ts with
    | some v => pset p "time_min_ts" (.num v)
    | none => p
  let p := match st.time_end_ts with
    | some v => pset p "time_max_ts" (.num v)
    | none => p
  let p := match st.time_start with
    | some s => if s ≠ "" then pset p "time_min" (.str s) else p
    | none => p
  match st.time_end with
  | some s => if s ≠ "" then pset p "time_max" (.str s) else p
  | none => p

/-- Lines 255–261 of `add_tippecanoe_minzoom`: store the resolved epoch
under `time_ts` and promote `time_floor` to `time` when present. -/
def tippecanoe_time_stage (ctx : Ctx) (props : Props) : Props :=
  match (parse_timestamp ctx (timeChain props)).2 with
  | some te =>
      let p := pset props "time_ts" (.num te)
      if hasKey p "time_floor" then pset p "time" (pget p "time_floor") else p
  | none => props

/-- Lines 262–270 of `add_tippecanoe_minzoom`: the stats overlay,
guarded by `stats and "time_min_ts" not in props`. -/
def tippecanoe_stats_stage (stats : Option StatsEntry) (props : Props) : Props :=
  match stats with
  | some st => if !hasKey props "time_min_ts" then apply_stats st props else props
  | none => props

/-- `add_tippecanoe_minzoom(feature, minzoom, stats)`. -/
def add_tippecanoe_minzoom (ctx : Ctx) (f : Feature) (minzoom : ℕ)
    (stats : Option StatsEntry) : Feature :=
  { properties := some (pset
      (tippecanoe_stats_stage stats (tippecanoe_time_stage ctx (propsOf f)))
      "tippecanoe" (.zoomHint minzoom none)),
    geometry := f.geometry }

/-- The `Aggregate` dataclass.  `day_label`, `time_min` and `time_max`
hold UTC day numbers standing for the "YYYY-MM-DD" strings the script
stores (see the file header). -/
structure Aggregate where
  count : ℕ := 0
  frp_sum : ℚ := 0
  fre_sum : ℚ := 0
  fre_mean_mj : ℚ := 0
  frp_max : ℚ := 0
  sample_time : Option String := none
  time_min : Option ℤ := none
  time_max : Option ℤ := none
  time_min_ts : Option ℚ := none
  time_max_ts : Option ℚ := none
  fros_sum : ℚ := 0
  fros_max : ℚ := 0
  fros_count : ℕ := 0
  day_start_ts : Option ℚ := none
  day_end_ts : Option ℚ := none
  day_label : Option ℤ := none
  res : Option ℕ := none
  fire_ids : Finset String := ∅
  deriving DecidableEq

/-- `Aggregate()` with all dataclass defaults. -/
def defaultAgg : Aggregate := {}

/-- The data of one observation as it reaches the aggregation block of
`stream` (lines 361–381): everything the per-key update reads. -/
structure Obs where
  fid : String
  frp : ℚ
  fre : ℚ
  fros : Option ℚ
  ts_str : Option String
  day : ℤ
  dstart : ℚ
  dend : ℚ
  res : ℕ
  deriving DecidableEq

/-- Lines 363–381 of `stream_features_h3.py`: the in-place mutation of
one `Aggregate` by one observation. -/
def updateObs (a : Aggregate) (o : Obs) : Aggregate :=
  let a1 := { a with res := some o.res, day_start_ts := some o.dstart,
                     day_end_ts := some o.dend, day_label := some o.day }
  let a2 :=
    if o.fid ∈ a1.fire_ids then a1
    else
      let b := { a1 with fire_ids := insert o.fid a1.fire_ids, count := a1.count + 1,
                         frp_sum := a1.frp_sum + o.frp, fre_sum := a1.fre_sum + o.fre }
      match o.fros with
      | some v => { b with fros_sum := b.fros_sum + v, fros_max := max b.fros_max v,
                           fros_count := b.fros_count + 1 }
      | none => b
  { a2 with frp_max := max a2.frp_max o.frp,
            sample_time := match o.ts_str with
              | some s => some s
              | none => a2.sample_time,
            time_min := match a2.time_min with
              | none => some o.day
              | some x => some x,
            time_max := match a2.time_max with
              | none => some o.day
              | some x => some x,
            time_min_ts := match a2.time_min_ts with
              | none => some o.dstart
              | some x => some x,
            time_max_ts := match a2.time_max_ts with
              | none => some o.dend
              | some x => some x }

/-- An aggregate key `(resolution, cell, day_start_ts)`. -/
abbrev AggKey := ℕ × String × ℚ

/-- The `summary` defaultdict, as an association list. -/
abbrev Summary := List (AggKey × Aggregate)

/-- Lookup in the summary table. -/
def lookupA : Summary → AggKey → Option Aggregate
  | [], _ => none
  | (k0, a) :: rest, k => if k0 = k then some a else lookupA rest k

/-- `summary[key]` read on a defaultdict: the stored aggregate or a fresh
default. -/
def getAgg (st : Summary) (k : AggKey) : Aggregate := (lookupA st k).getD defaultAgg

/-- Store back a mutated aggregate. -/
def setA : Summary → AggKey → Aggregate → Summary
  | [], k, a => [(k, a)]
  | (k0, a0) :: rest, k, a =>
      if k0 = k then (k, a) :: rest else (k0, a0) :: setA rest k a

/-- Line 333: `resolutions = [4]  # only resolution 4`. -/
def resolutions : List ℕ := [4]

/-- The run configuration passed to `stream` (its parameter list). -/
structure Cfg where
  h3_res : ℕ
  low_zoom_max : ℕ
  high_zoom_min : ℕ
  include_raw : Bool
  start_ts : Option ℚ
  end_ts : Option ℚ
  stats_map : List (String × StatsEntry)

/-- `stats_map.get(fire_id) if stats_map else None`. -/
def statsFor (m : List (String × StatsEntry)) (fid : String) : Option StatsEntry :=
  match m with
  | [] => none
  | _ => (m.find? (fun p => p.1 = fid)).map Prod.snd

/-- The date filter of lines 347–351: only a resolved timestamp is
tested; out-of-range features are skipped entirely. -/
def dateSkip (cfg : Cfg) (ts : Option ℚ) : Bool :=
  match ts with
  | none => false
  | some te =>
      (match cfg.start_ts with
        | some s => decide (te < s)
        | none => false) ||
      (match cfg.end_ts with
        | some e => decide (e ≤ te)
        | none => false)

/-- What `stream` does with one feature. -/
inductive FeatAction where
  | skip
  | err
  | emit (obsL : List (AggKey × Obs)) (raw : Option Feature)

/-- The per-feature body of `stream` (lines 335–385), computed as a pure
description: `skip` is a `continue`, `err` an uncaught exception, and
`emit` carries the aggregate updates (one per resolution whose cell
resolves) plus the optional raw pass-through record. -/
def analyze (ctx : Ctx) (cfg : Cfg) (f : Feature) : FeatAction :=
  let lonlat := extract_lonlat f
  let props := propsOf f
  match pget props "id_fire_event" with
  | .null => .skip
  | fidv =>
      let fire_id := pyStr fidv
      match pyFloat (pyOr (pget props "frp") (.num 0)) with
      | none => .err
      | some frp =>
          let fre := frp * 600
          let tsPair := parse_timestamp ctx (timeChain props)
          if dateSkip cfg tsPair.2 then .skip
          else
            let fros_val := normalize_fros (pget props "fros")
            let obsL :=
              match lonlat, tsPair.2 with
              | some (lon, lat), some te =>
                  let db := day_bucket te
                  resolutions.filterMap (fun res =>
                    (ctx.h3cell lat lon res).map (fun cell =>
                      ((res, cell, db.2.1),
                       { fid := fire_id, frp := frp, fre := fre, fros := fros_val,
                         ts_str := tsPair.1, day := db.1, dstart := db.2.1,
                         dend := db.2.2, res := res })))
              | _, _ => []
            let raw :=
              if cfg.include_raw then
                some (add_tippecanoe_minzoom ctx f cfg.high_zoom_min
                  (statsFor cfg.stats_map fire_id))
              else none
            .emit obsL raw

/-- Apply the aggregate updates of one feature to the summary table, in
order, exactly as the loop over `resolutions` mutates `summary`. -/
def applyAgg (st : Summary) : List (AggKey × Obs) → Summary
  | [] => st
  | (k, o) :: rest => applyAgg (setA st k (updateObs (getAgg st k) o)) rest

/-- One iteration of the feature loop of `stream`. -/
def streamStep (ctx : Ctx) (cfg : Cfg) (st : Summary) (f : Feature) :
    Except Unit (Summary × List Feature) :=
  match analyze ctx cfg f with
  | .skip => .ok (st, [])
  | .err => .error ()
  | .emit obsL raw =>
      .ok (applyAgg st obsL,
           match raw with
           | some r => [r]
           | none => [])

/-- The feature loop of `stream`: fold `streamStep` over the feature
stream, collecting raw pass-through records. -/
def streamFold (ctx : Ctx) (cfg : Cfg) : List Feature → Summary →
    Except Unit (Summary × List Feature)
  | [], st => .ok (st, [])
  | f :: fs, st =>
      match streamStep ctx cfg st f with
      | .error e => .error e
      | .ok (st1, raws) =>
          match streamFold ctx cfg fs st1 with
          | .error e => .error e
          | .ok (st2, rest) => .ok (st2, raws ++ rest)

/-- Python `round(x, 3)` up to its tie-breaking rule (no claim depends on
exact half-way ties). -/
def round3 (q : ℚ) : ℚ := (round (q * 1000) : ℚ) / 1000

/-- `build_h3_feature(cell, stats, max_zoom)`: hexagon boundary as a
closed ring, statistics rounded at emission time. -/
def build_h3_feature (ctx : Ctx) (cell : String) (stats : Aggregate) (max_zoom : ℕ) :
    Feature :=
  let pring := (ctx.cellBoundary cell).map (fun p => (p.2, p.1))
  let pring := match pring with
    | [] => pring
    | r0 :: _ => if pring.getLast? = some r0 then pring else pring ++ [r0]
  let ring := pring.map (fun p => PyArr.arr [.num p.1, .num p.2])
  let avg := if stats.count ≠ 0 then stats.frp_sum / stats.count else 0
  let fre_mean_mj := if stats.count ≠ 0 then stats.fre_sum / stats.count else 0
  let fros_avg := if stats.fros_count ≠ 0 then some (stats.fros_sum / stats.fros_count) else none
  { properties := some
      [("cell", .str cell),
       ("res", match stats.res with | some r => .num r | none => .null),
       ("count", .num stats.count),
       ("frp_sum", .num (round3 stats.frp_sum)),
       ("frp_max", .num (round3 stats.frp_max)),
       ("frp_avg", .num (round3 avg)),
       ("fre_sum_mj", .num (round3 stats.fre_sum)),
       ("fre_mean_mj", .num (round3 fre_mean_mj)),
       ("last_time", match stats.sample_time with | some s => .str s | none => .null),
       ("time_min", match stats.time_min with | some d => .str (ctx.isoOfTs (86400 * d)) | none => .null),
       ("time_max", match stats.time_max with | some d => .str (ctx.isoOfTs (86400 * d)) | none => .null),
       ("time_min_ts", match stats.time_min_ts with | some v => .num v | none => .null),
       ("time_max_ts", match stats.time_max_ts with | some v => .num v | none => .null),
       ("day_start_ts", match stats.day_start_ts with | some v => .num v | none => .null),
       ("day_end_ts", match stats.day_end_ts with | some v => .num v | none => .null),
       ("day_label", match stats.day_label with | some d => .str (ctx.isoOfTs (86400 * d)) | none => .null),
       ("fros_sum", .num (round3 stats.fros_sum)),
       ("fros_max", .num (round3 stats.fros_max)),
       ("fros_avg", match fros_avg with | some v => .num (round3 v) | none => .null),
       ("tippecanoe", .zoomHint 0 (some max_zoom))],
    geometry := some { gtype := some "Polygon", coordinates := some (.arr [.arr ring]) } }

/-- `stream(...)`: iterate all features, fold the aggregation, then flush
every accumulated aggregate as one hexagon feature.  The `h3_res`
parameter of `Cfg` is received, as in the Python signature, but the body
never reads it. -/
def stream (ctx : Ctx) (cfg : Cfg) (files : List SourceFile) :
    Except Unit (List Feature) :=
  match iter_features ctx files with
  | .error e => .error e
  | .ok feats =>
      match streamFold ctx cfg feats [] with
      | .error e => .error e
      | .ok (st, raws) =>
          .ok (raws ++ st.map (fun p => build_h3_feature ctx p.1.2.1 p.2 cfg.low_zoom_max))

namespace Validate

/-- `parse_timestamp` of `validate_h3_coverage.py` (epoch only). -/
def parse_timestamp (ctx : Ctx) : PVal → Option ℚ
  | .str s => if s = "" then none else ctx.parseISO s
  | _ => none

/-- `day_label(ts)` as the UTC day number standing for the ISO string. -/
def day_label (ts : ℚ) : ℤ := ⌊ts / 86400⌋

/-- `representative_lonlat(geom)`: the point itself for `Point` (first
two entries, tail ignored), the first point for a nonempty `MultiPoint`,
otherwise the centroid of all leaf pairs. -/
def representative_lonlat (geom : Option Geometry) : Option (ℚ × ℚ) :=
  match geom with
  | none => none
  | some g =>
      if g.gtype = some "Point" then
        match g.coordinates with
        | some (.arr (a :: b :: _)) =>
            match pyFloatArr a, pyFloatArr b with
            | some x, some y => some (x, y)
            | _, _ => none
        | _ => none
      else if g.gtype = some "MultiPoint" then
        match g.coordinates with
        | some (.arr (pt :: _)) =>
            match pt with
            | .arr (a :: b :: _) =>
                match pyFloatArr a, pyFloatArr b with
                | some x, some y => some (x, y)
                | _, _ => none
            | _ => none
        | _ => none
      else
        let pairs := match g.coordinates with
          | some c => flatten_pairs c
          | none => []
        match pairs with
        | [] => none
        | _ =>
            some ((pairs.map Prod.fst).sum / pairs.length,
                  (pairs.map Prod.snd).sum / pairs.length)

/-- `RESOLUTIONS = [1, 2, 3, 4]`. -/
def RESOLUTIONS : List ℕ := [1, 2, 3, 4]

/-- A `(res, day_label, cell)` triple. -/
abbrev VKey := ℕ × ℤ × String

/-- The body of the validator's inner resolution loop: on a resolvable
cell, add the same `(res, day, cell)` triple to both `raw_cells_all` and
`agg_cells`; the `try/except` skips unresolvable cells. -/
def vins (ctx : Ctx) (lat lon : ℚ) (day : ℤ)
    (a : Finset VKey × Finset VKey) (res : ℕ) : Finset VKey × Finset VKey :=
  match ctx.h3cell lat lon res with
  | none => a
  | some cell => (insert (res, day, cell) a.1, insert (res, day, cell) a.2)

/-- One iteration of the validator's feature loop: both sets receive the
same `(res, day, cell)` triples, from the same representative point. -/
def vstep (ctx : Ctx) (acc : Finset VKey × Finset VKey) (f : Feature) :
    Finset VKey × Finset VKey :=
  let props := propsOf f
  if !hasKey props "id_fire_event" then acc
  else
    match parse_timestamp ctx (pyOr (pget props "time") (pget props "timestamp")) with
    | none => acc
    | some ts =>
        let day := day_label ts
        match representative_lonlat f.geometry with
        | none => acc
        | some (lon, lat) => RESOLUTIONS.foldl (vins ctx lat lon day) acc

/-- The validator's main loop: `(agg_cells, raw_cells_all)`. -/
def vrun (ctx : Ctx) (fs : List Feature) : Finset VKey × Finset VKey :=
  fs.foldl (vstep ctx) (∅, ∅)

/-- `missing = agg_cells - raw_cells_all`. -/
def vmissing (ctx : Ctx) (fs : List Feature) : Finset VKey :=
  (vrun ctx fs).1 \ (vrun ctx fs).2

/-- Process exit status: `SystemExit(1)` when `missing` is nonempty,
normal success print otherwise. -/
def vexit (ctx : Ctx) (fs : List Feature) : ℕ :=
  if vmissing ctx fs = ∅ then 0 else 1

end Validate

/-- A concrete library instantiation used by the witnesses: timestamps
are plain decimal epoch strings, every coordinate resolves to one cell
name per resolution, transformers are the identity. -/
def testCtx : Ctx where
  parseISO := parseFloatStr
  isoOfTs := fun q => toString q.num
  h3cell := fun _ _ r => some ("c" ++ toString r)
  mkTransformer := fun _ => id
  cellBoundary := fun _ => []

/-- Witness configuration: aggregate-only run, no date filter. -/
def cfgW : Cfg where
  h3_res := 3
  low_zoom_max := 4
  high_zoom_min := 5
  include_raw := false
  start_ts := none
  end_ts := none
  stats_map := []

/-- A point geometry at the origin. -/
def wGeom : Option Geometry :=
  some { gtype := some "Point", coordinates := some (.arr [.num 0, .num 0]) }

/-- First observation of entity `F1`: FRP 10, FROS 1. -/
def wF1 : Feature where
  properties := some [("id_fire_event", .str "F1"), ("frp", .num 10),
                      ("fros", .num 1), ("time", .str "1000")]
  geometry := wGeom

/-- Repeat observation of entity `F1`: FRP 30, FROS 5. -/
def wF2 : Feature where
  properties := some [("id_fire_event", .str "F1"), ("frp", .num 30),
                      ("fros", .num 5), ("time", .str "2000")]
  geometry := wGeom

/-- An observation of a second entity `F2`: FRP 7, no FROS. -/
def wF3 : Feature where
  properties := some [("id_fire_event", .str "F2"), ("frp", .num 7),
                      ("time", .str "3000")]
  geometry := wGeom

/-- The single aggregate key the witness run produces. -/
def wKey : AggKey := (4, "c4", 0)

/-- Extract the summary from a completed fold (error yields the empty
table; the witnesses only use it on successful runs). -/
def foldSummary (r : Except Unit (Summary × List Feature)) : Summary :=
  match r with
  | .ok (st, _) => st
  | .error _ => []

/-- Extract the raw records from a completed fold. -/
def foldRaws (r : Except Unit (Summary × List Feature)) : List Feature :=
  match r with
  | .ok (_, raws) => raws
  | .error _ => []


theorem lookupA_setA_self (st : Summary) (k : AggKey) (a : Aggregate) :
    lookupA (setA st k a) k = some a := by
  induction st with
  | nil => simp [setA, lookupA]
  | cons hd tl ih =>
      obtain ⟨k0, a0⟩ := hd
      by_cases h : k0 = k
      · simp [setA, h, lookupA]
      · simp [setA, h, lookupA, ih]

theorem lookupA_setA_ne (st : Summary) (k k' : AggKey) (a : Aggregate)
    (h : k' ≠ k) : lookupA (setA st k a) k' = lookupA st k' := by
  induction st with
  | nil => simp [setA, lookupA, Ne.symm h]
  | cons hd tl ih =>
      obtain ⟨k0, a0⟩ := hd
      by_cases h0 : k0 = k
      · subst h0
        simp [setA, lookupA, Ne.symm h]
      · simp [setA, h0, lookupA, ih]

theorem updateObs_frp_max (a : Aggregate) (o : Obs) :
    (updateObs a o).frp_max = max a.frp_max o.frp := by
  unfold updateObs
  by_cases h : o.fid ∈ a.fire_ids <;> cases hf : o.fros <;> simp [h, hf]

theorem updateObs_fire_ids (a : Aggregate) (o : Obs) :
    (updateObs a o).fire_ids = insert o.fid a.fire_ids := by
  unfold updateObs
  by_cases h : o.fid ∈ a.fire_ids <;> cases hf : o.fros <;>
    simp [h, hf, Finset.insert_eq_self]

theorem updateObs_count (a : Aggregate) (o : Obs) :
    (updateObs a o).count = if o.fid ∈ a.fire_ids then a.count else a.count + 1 := by
  unfold updateObs
  by_cases h : o.fid ∈ a.fire_ids <;> cases hf : o.fros <;> simp [h, hf]

theorem updateObs_frp_sum (a : Aggregate) (o : Obs) :
    (updateObs a o).frp_sum = if o.fid ∈ a.fire_ids then a.frp_sum else a.frp_sum + o.frp := by
  unfold updateObs
  by_cases h : o.fid ∈ a.fire_ids <;> cases hf : o.fros <;> simp [h, hf]

theorem updateObs_fre_sum (a : Aggregate) (o : Obs) :
    (updateObs a o).fre_sum = if o.fid ∈ a.fire_ids then a.fre_sum else a.fre_sum + o.fre := by
  unfold updateObs
  by_cases h : o.fid ∈ a.fire_ids <;> cases hf : o.fros <;> simp [h, hf]

theorem updateObs_fros_sum (a : Aggregate) (o : Obs) :
    (updateObs a o).fros_sum =
      if o.fid ∈ a.fire_ids then a.fros_sum
      else match o.fros with
        | some v => a.fros_sum + v
        | none => a.fros_sum := by
  unfold updateObs
  by_cases h : o.fid ∈ a.fire_ids <;> cases hf : o.fros <;> simp [h, hf]

theorem updateObs_fros_max (a : Aggregate) (o : Obs) :
    (updateObs a o).fros_max =
      if o.fid ∈ a.fire_ids then a.fros_max
      else match o.fros with
        | some v => max a.fros_max v
        | none => a.fros_max := by
  unfold updateObs
  by_cases h : o.fid ∈ a.fire_ids <;> cases hf : o.fros <;> simp [h, hf]

theorem updateObs_fros_count (a : Aggregate) (o : Obs) :
    (updateObs a o).fros_count =
      if o.fid ∈ a.fire_ids then a.fros_count
      else match o.fros with
        | some _ => a.fros_count + 1
        | none => a.fros_count := by
  unfold updateObs
  by_cases h : o.fid ∈ a.fire_ids <;> cases hf : o.fros <;> simp [h, hf]

/-- One defaultdict read-update step, on the optional stored aggregate. -/
def updOpt (oa : Option Aggregate) (o : Obs) : Option Aggregate :=
  some (updateObs (oa.getD defaultAgg) o)

/-- The observations of one feature's update list that target key `k`. -/
def selObs (k : AggKey) (l : List (AggKey × Obs)) : List Obs :=
  l.filterMap (fun p => if p.1 = k then some p.2 else none)

/-- The observations one feature routes into bucket `k`. -/
def featBucketObs (ctx : Ctx) (cfg : Cfg) (f : Feature) (k : AggKey) : List Obs :=
  match analyze ctx cfg f with
  | .emit obsL _ => selObs k obsL
  | _ => []

/-- All observations a feature stream routes into bucket `k`, in stream
order. -/
def bucketObs (ctx : Ctx) (cfg : Cfg) : List Feature → AggKey → List Obs
  | [], _ => []
  | f :: fs, k => featBucketObs ctx cfg f k ++ bucketObs ctx cfg fs k

theorem foldl_updOpt_some (l : List Obs) (a : Aggregate) :
    l.foldl updOpt (some a) = some (l.foldl updateObs a) := by
  induction l generalizing a with
  | nil => rfl
  | cons o rest ih => simp [updOpt, ih]

theorem lookupA_applyAgg (st : Summary) (l : List (AggKey × Obs)) (k : AggKey) :
    lookupA (applyAgg st l) k = (selObs k l).foldl updOpt (lookupA st k) := by
  induction l generalizing st with
  | nil => simp [applyAgg, selObs]
  | cons p rest ih =>
      obtain ⟨k0, o⟩ := p
      by_cases h : k0 = k
      · subst h
        rw [applyAgg, ih]
        simp [selObs, lookupA_setA_self, updOpt, getAgg]
      · rw [applyAgg, ih]
        simp [selObs, h, lookupA_setA_ne st k0 k _ (fun hk => h hk.symm)]

theorem streamFold_lookup (ctx : Ctx) (cfg : Cfg) (fs : List Feature)
    (st st' : Summary) (raws : List Feature)
    (h : streamFold ctx cfg fs st = .ok (st', raws)) (k : AggKey) :
    lookupA st' k = (bucketObs ctx cfg fs k).foldl updOpt (lookupA st k) := by
  induction fs generalizing st raws with
  | nil =>
      simp only [streamFold] at h
      obtain ⟨rfl, rfl⟩ : st = st' ∧ [] = raws := by
        injection h with h1
        injection h1 with h2 h3
        exact ⟨h2, h3⟩
      simp [bucketObs]
  | cons f rest ih =>
      rw [streamFold] at h
      cases ha : analyze ctx cfg f with
      | skip =>
          rw [streamStep, ha] at h
          simp only at h
          cases hrec : streamFold ctx cfg rest st with
          | error e => rw [hrec] at h; exact absurd h (by simp)
          | ok p =>
              rw [hrec] at h
              obtain ⟨st2, rest2⟩ := p
              simp only at h
              injection h with h1
              injection h1 with h2 h3
              subst h2
              rw [bucketObs, featBucketObs, ha]
              simpa using ih st rest2 hrec
      | err =>
          rw [streamStep, ha] at h
          exact absurd h (by simp)
      | emit obsL raw =>
          rw [streamStep, ha] at h
          simp only at h
          cases hrec : streamFold ctx cfg rest (applyAgg st obsL) with
          | error e => rw [hrec] at h; exact absurd h (by simp)
          | ok p =>
              rw [hrec] at h
              obtain ⟨st2, rest2⟩ := p
              simp only at h
              injection h with h1
              injection h1 with h2 h3
              subst h2
              rw [bucketObs, featBucketObs, ha, List.foldl_append,
                ← lookupA_applyAgg st obsL k]
              exact ih (applyAgg st obsL) rest2 hrec

theorem foldl_updateObs_fire_ids (l : List Obs) (a : Aggregate) :
    (l.foldl updateObs a).fire_ids = a.fire_ids ∪ (l.map Obs.fid).toFinset := by
  induction l generalizing a with
  | nil => simp
  | cons o rest ih =>
      rw [List.foldl_cons, ih, updateObs_fire_ids]
      simp [Finset.insert_union, Finset.union_insert]

theorem foldl_updateObs_count (l : List Obs) (a : Aggregate)
    (hinv : a.count = a.fire_ids.card) :
    (l.foldl updateObs a).count = (l.foldl updateObs a).fire_ids.card := by
  induction l generalizing a with
  | nil => simpa
  | cons o rest ih =>
      rw [List.foldl_cons]
      apply ih
      rw [updateObs_count, updateObs_fire_ids]
      by_cases h : o.fid ∈ a.fire_ids
      · simp [h, Finset.insert_eq_self.mpr h, hinv]
      · simp [h, Finset.card_insert_of_not_mem h, hinv]

/-- Keep the first observation of each entity id not yet in `seen`: the
sub-list whose members actually pass the dedup guard. -/
def dedupF (seen : Finset String) : List Obs → List Obs
  | [] => []
  | o :: rest =>
      if o.fid ∈ seen then dedupF seen rest
      else o :: dedupF (insert o.fid seen) rest

theorem foldl_updateObs_frp_sum (l : List Obs) (a : Aggregate) :
    (l.foldl updateObs a).frp_sum =
      a.frp_sum + ((dedupF a.fire_ids l).map Obs.frp).sum := by
  induction l generalizing a with
  | nil => simp [dedupF]
  | cons o rest ih =>
      rw [List.foldl_cons, ih, updateObs_frp_sum, updateObs_fire_ids]
      by_cases h : o.fid ∈ a.fire_ids
      · simp [dedupF, h, Finset.insert_eq_self.mpr h]
      · simp [dedupF, h, add_assoc]

theorem foldl_updateObs_fre_sum (l : List Obs) (a : Aggregate) :
    (l.foldl updateObs a).fre_sum =
      a.fre_sum + ((dedupF a.fire_ids l).map Obs.fre).sum := by
  induction l generalizing a with
  | nil => simp [dedupF]
  | cons o rest ih =>
      rw [List.foldl_cons, ih, updateObs_fre_sum, updateObs_fire_ids]
      by_cases h : o.fid ∈ a.fire_ids
      · simp [dedupF, h, Finset.insert_eq_self.mpr h]
      · simp [dedupF, h, add_assoc]

theorem foldl_updateObs_fros_sum (l : List Obs) (a : Aggregate) :
    (l.foldl updateObs a).fros_sum =
      a.fros_sum + ((dedupF a.fire_ids l).filterMap Obs.fros).sum := by
  induction l generalizing a with
  | nil => simp [dedupF]
  | cons o rest ih =>
      rw [List.foldl_cons, ih, updateObs_fros_sum, updateObs_fire_ids]
      by_cases h : o.fid ∈ a.fire_ids
      · simp [dedupF, h, Finset.insert_eq_self.mpr h]
      · cases hf : o.fros with
        | none => simp [dedupF, h, hf]
        | some v => simp [dedupF, h, hf, add_assoc]

theorem foldl_updateObs_fros_count (l : List Obs) (a : Aggregate) :
    (l.foldl updateObs a).fros_count =
      a.fros_count + ((dedupF a.fire_ids l).filterMap Obs.fros).length := by
  induction l generalizing a with
  | nil => simp [dedupF]
  | cons o rest ih =>
      rw [List.foldl_cons, ih, updateObs_fros_count, updateObs_fire_ids]
      by_cases h : o.fid ∈ a.fire_ids
      · simp [dedupF, h, Finset.insert_eq_self.mpr h]
      · cases hf : o.fros with
        | none => simp [dedupF, h, hf]
        | some v =>
            simp [dedupF, h, hf]
            omega

theorem foldl_updateObs_frp_max_mono (l : List Obs) (a : Aggregate) :
    a.frp_max ≤ (l.foldl updateObs a).frp_max := by
  induction l generalizing a with
  | nil => simp
  | cons o rest ih =>
      rw [List.foldl_cons]
      exact le_trans (by rw [updateObs_frp_max]; exact le_max_left _ _) (ih _)

theorem foldl_updateObs_frp_max_ge (l : List Obs) (a : Aggregate)
    (o : Obs) (ho : o ∈ l) : o.frp ≤ (l.foldl updateObs a).frp_max := by
  induction l generalizing a with
  | nil => cases ho
  | cons o' rest ih =>
      rw [List.foldl_cons]
      rcases List.mem_cons.mp ho with h | h
      · subst h
        exact le_trans (by rw [updateObs_frp_max]; exact le_max_right _ _)
          (foldl_updateObs_frp_max_mono rest _)
      · exact ih _ h

theorem dedupF_length (l : List Obs) (seen : Finset String) :
    (dedupF seen l).length = ((l.map Obs.fid).toFinset \ seen).card := by
  induction l generalizing seen with
  | nil => simp [dedupF]
  | cons o rest ih =>
      rw [dedupF]
      by_cases h : o.fid ∈ seen
      · rw [if_pos h, ih]
        congr 1
        simp only [List.map_cons, List.toFinset_cons]
        rw [Finset.insert_sdiff_of_mem _ h]
      · rw [if_neg h]
        simp only [List.length_cons, ih, List.map_cons, List.toFinset_cons]
        rw [Finset.sdiff_insert, Finset.insert_sdiff_of_not_mem _ h]
        by_cases hS : o.fid ∈ (rest.map Obs.fid).toFinset \ seen
        · rw [Finset.card_erase_of_mem hS, Finset.insert_eq_self.mpr hS]
          have hpos : 0 < ((rest.map Obs.fid).toFinset \ seen).card :=
            Finset.card_pos.mpr ⟨o.fid, hS⟩
          omega
        · rw [Finset.erase_eq_of_not_mem hS, Finset.card_insert_of_not_mem hS]

theorem dedupF_length_empty (l : List Obs) :
    (dedupF ∅ l).length = (l.map Obs.fid).toFinset.card := by
  simpa using dedupF_length l ∅

/-- The summary table a completed run produced, `none` when the run
raised. -/
def foldOutcome (r : Except Unit (Summary × List Feature)) : Option Summary :=
  match r with
  | .ok (st, _) => some st
  | .error _ => none

theorem pget_pset_ne (p : Props) (k k' : String) (v : PVal) (h : k' ≠ k) :
    pget (pset p k v) k' = pget p k' := by
  induction p with
  | nil => simp [pset, pget, Ne.symm h]
  | cons hd tl ih =>
      obtain ⟨k0, v0⟩ := hd
      by_cases h0 : k0 = k
      · subst h0
        simp [pset, pget, Ne.symm h]
      · simp [pset, h0, pget, ih]

theorem hasKey_pset_other (p : Props) (k k' : String) (v : PVal) (h : k' ≠ k) :
    hasKey (pset p k v) k' = hasKey p k' := by
  induction p with
  | nil => simp [pset, hasKey, Ne.symm h]
  | cons hd tl ih =>
      obtain ⟨k0, v0⟩ := hd
      by_cases h0 : k0 = k
      · subst h0
        simp [pset, hasKey, Ne.symm h, ih]
      · simp [pset, h0, hasKey, ih]

theorem pget_of_hasKey_false (p : Props) (k : String) (h : hasKey p k = false) :
    pget p k = .null := by
  induction p with
  | nil => rfl
  | cons hd tl ih =>
      obtain ⟨k0, v0⟩ := hd
      rw [hasKey] at h
      rcases Bool.or_eq_false_iff.mp h with ⟨h1, h2⟩
      rw [pget, if_neg (by simpa using h1)]
      exact ih h2

theorem attach_file_id_geometry (fid : Option String)
    (range : Option (String × ℚ × String × ℚ)) (f : Feature) :
    (attach_file_id fid range f).geometry = f.geometry := by
  unfold attach_file_id
  cases fid with
  | none => rfl
  | some i =>
      by_cases h : hasKey (propsOf f) "id_fire_event"
      · simp [h]
      · cases range <;> simp [h]

theorem attach_file_id_props_of_none (range : Option (String × ℚ × String × ℚ))
    (f : Feature) : attach_file_id none range f = f := rfl

theorem seqFeatures_map_ok (l : List Feature) (g : Feature → Feature) :
    seqFeatures (l.map (fun f => Except.ok (g f))) = .ok (l.map g) := by
  induction l with
  | nil => rfl
  | cons f rest ih => simp [seqFeatures, ih, Except.map]

theorem build_transformer_none (ctx : Ctx) (c : Option String)
    (h : c = none ∨ ∃ s, c = some s ∧
        (epsgSearch s.toList = none ∨ epsgSearch s.toList = some 4326)) :
    build_transformer ctx c = none := by
  rcases h with rfl | ⟨s, rfl, hs | hs⟩
  · rfl
  · rw [build_transformer]
    split
    · rfl
    · rw [hs]
  · rw [build_transformer]
    split
    · rfl
    · rw [hs]
      simp

theorem foldl_updOpt_none_cons (o : Obs) (rest : List Obs) :
    (o :: rest).foldl updOpt none =
      some ((o :: rest).foldl updateObs defaultAgg) := by
  rw [List.foldl_cons, List.foldl_cons]
  have h : updOpt none o = some (updateObs defaultAgg o) := rfl
  rw [h, foldl_updOpt_some]

/-- The aggregate a completed run stores at key `k` is exactly the fold
of the observations routed into bucket `k`, starting from a fresh
default aggregate; keys no observation reached are absent. -/
theorem streamFold_bucket (ctx : Ctx) (cfg : Cfg) (fs : List Feature)
    (st' : Summary) (k : AggKey)
    (hrun : foldOutcome (streamFold ctx cfg fs []) = some st') :
    lookupA st' k =
      match bucketObs ctx cfg fs k with
      | [] => none
      | l => some (l.foldl updateObs defaultAgg) := by
  cases hr : streamFold ctx cfg fs [] with
  | error e => rw [hr] at hrun; exact absurd hrun (by simp [foldOutcome])
  | ok p =>
      obtain ⟨st1, raws⟩ := p
      rw [hr] at hrun
      have hst : st1 = st' := by
        simpa [foldOutcome] using hrun
      subst hst
      rw [streamFold_lookup ctx cfg fs [] st1 raws hr k]
      cases hb : bucketObs ctx cfg fs k with
      | nil => rfl
      | cons o rest => exact foldl_updOpt_none_cons o rest

/-- Claim C1: for every (resolution, cell, day) aggregate bucket produced by
the streaming fold, `count` equals the number of distinct entity ids
whose observations mapped into that bucket, and each of `frp_sum`,
`fre_sum`, `fros_sum` and `fros_count` receives exactly one contribution
per entity id (the first observation of that id in the bucket): repeat
observations of an already-recorded id never increment them again. -/
theorem aggregate_count_distinct (ctx : Ctx) (cfg : Cfg) (fs : List Feature)
    (st' : Summary) (k : AggKey) (a : Aggregate)
    (hrun : foldOutcome (streamFold ctx cfg fs []) = some st')
    (ha : lookupA st' k = some a) :
    a.count = ((bucketObs ctx cfg fs k).map Obs.fid).toFinset.card ∧
    a.frp_sum = ((dedupF ∅ (bucketObs ctx cfg fs k)).map Obs.frp).sum ∧
    a.fre_sum = ((dedupF ∅ (bucketObs ctx cfg fs k)).map Obs.fre).sum ∧
    a.fros_sum = ((dedupF ∅ (bucketObs ctx cfg fs k)).filterMap Obs.fros).sum ∧
    a.fros_count = ((dedupF ∅ (bucketObs ctx cfg fs k)).filterMap Obs.fros).length := by
  have hb := streamFold_bucket ctx cfg fs st' k hrun
  rw [ha] at hb
  cases hbo : bucketObs ctx cfg fs k with
  | nil => rw [hbo] at hb; exact absurd hb (by simp)
  | cons o rest =>
      rw [hbo] at hb
      have haeq : a = (o :: rest).foldl updateObs defaultAgg := Option.some.inj hb
      subst haeq
      refine ⟨?_, ?_, ?_, ?_, ?_⟩
      · rw [foldl_updateObs_count _ _ rfl, foldl_updateObs_fire_ids]
        have h0 : defaultAgg.fire_ids = ∅ := rfl
        rw [h0, Finset.empty_union]
      · rw [foldl_updateObs_frp_sum]
        have h0 : defaultAgg.frp_sum = 0 := rfl
        have hf : defaultAgg.fire_ids = ∅ := rfl
        rw [h0, hf, zero_add]
      · rw [foldl_updateObs_fre_sum]
        have h0 : defaultAgg.fre_sum = 0 := rfl
        have hf : defaultAgg.fire_ids = ∅ := rfl
        rw [h0, hf, zero_add]
      · rw [foldl_updateObs_fros_sum]
        have h0 : defaultAgg.fros_sum = 0 := rfl
        have hf : defaultAgg.fire_ids = ∅ := rfl
        rw [h0, hf, zero_add]
      · rw [foldl_updateObs_fros_count]
        have h0 : defaultAgg.fros_count = 0 := rfl
        have hf : defaultAgg.fire_ids = ∅ := rfl
        rw [h0, hf, zero_add]

/-- The witness run over three observations (entity `F1` twice, `F2`
once). -/
def wRun3 : Except Unit (Summary × List Feature) :=
  streamFold testCtx cfgW [wF1, wF2, wF3] []

/-- Its summary table. -/
def wSt3 : Summary := (foldOutcome wRun3).getD []

/-- Its single aggregate. -/
def wAgg3 : Aggregate := (lookupA wSt3 wKey).getD defaultAgg

theorem aggregate_count_distinct_witness :
    wAgg3.count = ((bucketObs testCtx cfgW [wF1, wF2, wF3] wKey).map Obs.fid).toFinset.card ∧
    wAgg3.count = 2 := by
  have h1 : foldOutcome wRun3 = some wSt3 := by decide!
  have h2 : lookupA wSt3 wKey = some wAgg3 := by decide!
  exact ⟨(aggregate_count_distinct testCtx cfgW [wF1, wF2, wF3] wSt3 wKey wAgg3 h1 h2).1,
    by decide!⟩

/-- The witness run over the two `F1` observations only. -/
def wRun12 : Except Unit (Summary × List Feature) :=
  streamFold testCtx cfgW [wF1, wF2] []

/-- Its summary table. -/
def wSt12 : Summary := (foldOutcome wRun12).getD []

/-- Its single aggregate. -/
def wAgg12 : Aggregate := (lookupA wSt12 wKey).getD defaultAgg

/-- Counterexample to claim C2: two observations of entity `F1` map into the same
bucket with valid FROS values 1 then 5, yet the final `fros_max` is 1:
`fros_max` is only updated inside the dedup branch (lines 372–375), so
the repeat observation's FROS 5 is ignored, contradicting "`fros_max`
fields are updated on that observation regardless of whether the
observation's entity id was already recorded". -/
theorem fros_max_not_updated_on_repeat :
    (bucketObs testCtx cfgW [wF1, wF2] wKey).filterMap Obs.fros = [1, 5] ∧
    (lookupA wSt12 wKey).map Aggregate.fros_max = some 1 ∧
    ¬ (5 : ℚ) ≤ 1 := by
  refine ⟨by decide!, by decide!, by decide!⟩

/-- Claim C2 as amended: `frp_max` (unlike `fros_max`) is updated on every
observation regardless of dedup state: for every aggregate, `frp_max` is
greater than or equal to every individual FRP value mapped into that
bucket, including repeat observations of an already-counted entity. -/
theorem frp_max_ge_all_observations (ctx : Ctx) (cfg : Cfg) (fs : List Feature)
    (st' : Summary) (k : AggKey) (a : Aggregate)
    (hrun : foldOutcome (streamFold ctx cfg fs []) = some st')
    (ha : lookupA st' k = some a) :
    ∀ o ∈ bucketObs ctx cfg fs k, o.frp ≤ a.frp_max := by
  intro o ho
  have hb := streamFold_bucket ctx cfg fs st' k hrun
  rw [ha] at hb
  cases hbo : bucketObs ctx cfg fs k with
  | nil => rw [hbo] at ho; cases ho
  | cons o0 rest =>
      rw [hbo] at hb ho
      have haeq : a = (o0 :: rest).foldl updateObs defaultAgg := Option.some.inj hb
      subst haeq
      exact foldl_updateObs_frp_max_ge _ _ o ho

/-- The first witness observation, as routed by the model. -/
def wObs1 : Obs where
  fid := "F1"
  frp := 10
  fre := 6000
  fros := some 1
  ts_str := some "1000"
  day := 0
  dstart := 0
  dend := 86400
  res := 4

theorem frp_max_ge_all_observations_witness : (10 : ℚ) ≤ wAgg12.frp_max := by
  have h1 : foldOutcome wRun12 = some wSt12 := by decide!
  have h2 : lookupA wSt12 wKey = some wAgg12 := by decide!
  have h3 : wObs1 ∈ bucketObs testCtx cfgW [wF1, wF2] wKey := by decide!
  exact frp_max_ge_all_observations testCtx cfgW [wF1, wF2] wSt12 wKey wAgg12 h1 h2 wObs1 h3

/-- The witness run over a single observation. -/
def wRun1 : Except Unit (Summary × List Feature) :=
  streamFold testCtx cfgW [wF1] []

/-- Claim C3 at its failing input: the `--h3-res` run parameter is dead.  `cfgW` configures
resolution 3, yet the only aggregate bucket the run produces carries
resolution 4, hardcoded by `resolutions = [4]` (line 333). -/
theorem h3_res_parameter_ignored :
    cfgW.h3_res = 3 ∧
    ((foldOutcome wRun1).getD []).map (fun p => p.1.1) = [4] ∧
    ((foldOutcome wRun1).getD []).map (fun p => p.2.res) = [some 4] := by
  refine ⟨rfl, by decide!, by decide!⟩

/-- Claim C4: a feature whose resolved timestamp falls strictly before the
configured start bound, or at or after the day-after-end bound, is
absent from the output entirely: the step leaves the aggregate table
unchanged and emits no raw record (or, when an earlier line of the loop
body raises on a malformed FRP, the run aborts and the feature is not
emitted either). -/
theorem date_filter_excludes (ctx : Ctx) (cfg : Cfg) (st : Summary)
    (f : Feature) (te : ℚ)
    (hts : (parse_timestamp ctx (timeChain (propsOf f))).2 = some te)
    (hout : (∃ s, cfg.start_ts = some s ∧ te < s) ∨
            (∃ d, cfg.end_ts = some (end_bound d) ∧ end_bound d ≤ te)) :
    streamStep ctx cfg st f = .ok (st, []) ∨ streamStep ctx cfg st f = .error () := by
  have hskip : dateSkip cfg (some te) = true := by
    rcases hout with ⟨s, hs, hlt⟩ | ⟨d, hd, hle⟩
    · rw [dateSkip, hs]
      simp [hlt]
    · rw [dateSkip, hd]
      simp [hle]
  simp only [streamStep, analyze]
  rw [hts, hskip]
  cases pget (propsOf f) "id_fire_event" with
  | null => exact Or.inl rfl
  | bool b =>
      cases pyFloat (pyOr (pget (propsOf f) "frp") (.num 0)) with
      | none => exact Or.inr rfl
      | some frp => exact Or.inl rfl
  | num q =>
      cases pyFloat (pyOr (pget (propsOf f) "frp") (.num 0)) with
      | none => exact Or.inr rfl
      | some frp => exact Or.inl rfl
  | str s =>
      cases pyFloat (pyOr (pget (propsOf f) "frp") (.num 0)) with
      | none => exact Or.inr rfl
      | some frp => exact Or.inl rfl
  | zoomHint mn mx =>
      cases pyFloat (pyOr (pget (propsOf f) "frp") (.num 0)) with
      | none => exact Or.inr rfl
      | some frp => exact Or.inl rfl

/-- Configuration whose start date lies after the witness observations. -/
def cfgD : Cfg where
  h3_res := 3
  low_zoom_max := 4
  high_zoom_min := 5
  include_raw := true
  start_ts := some 2000000
  end_ts := none
  stats_map := []

theorem date_filter_excludes_witness :
    streamStep testCtx cfgD [] wF1 = .ok ([], []) ∨
    streamStep testCtx cfgD [] wF1 = .error () := by
  have hts : (parse_timestamp testCtx (timeChain (propsOf wF1))).2 = some 1000 := by
    decide!
  exact date_filter_excludes testCtx cfgD [] wF1 1000 hts
    (Or.inl ⟨2000000, rfl, by decide!⟩)

/-- The three FROS statistics of a stored (or absent) aggregate. -/
def frosView (oa : Option Aggregate) : ℚ × ℚ × ℕ :=
  match oa with
  | none => (0, 0, 0)
  | some a => (a.fros_sum, a.fros_max, a.fros_count)

theorem frosView_updateObs_none (b : Aggregate) (o : Obs) (h : o.fros = none) :
    frosView (some (updateObs b o)) = frosView (some b) := by
  simp [frosView, updateObs_fros_sum, updateObs_fros_max, updateObs_fros_count, h]

theorem frosView_foldl_none (l : List Obs) (v : Option Aggregate)
    (h : ∀ o ∈ l, o.fros = none) :
    frosView (l.foldl updOpt v) = frosView v := by
  induction l generalizing v with
  | nil => rfl
  | cons o rest ih =>
      rw [List.foldl_cons, ih _ (fun o' ho' => h o' (List.mem_cons_of_mem _ ho'))]
      have ho : o.fros = none := h o (List.mem_cons_self _ _)
      cases v with
      | none => exact frosView_updateObs_none defaultAgg o ho
      | some b => exact frosView_updateObs_none b o ho

theorem mem_selObs (k : AggKey) (l : List (AggKey × Obs)) (o : Obs)
    (h : o ∈ selObs k l) : (k, o) ∈ l := by
  rw [selObs, List.mem_filterMap] at h
  obtain ⟨p, hp, hg⟩ := h
  by_cases hk : p.1 = k
  · rw [if_pos hk] at hg
    obtain rfl : p.2 = o := by injection hg
    obtain ⟨p1, p2⟩ := p
    obtain rfl : p1 = k := hk
    exact hp
  · rw [if_neg hk] at hg
    cases hg

theorem analyze_emit_fros (ctx : Ctx) (cfg : Cfg) (f : Feature)
    (obsL : List (AggKey × Obs)) (raw : Option Feature)
    (h : analyze ctx cfg f = .emit obsL raw) :
    ∀ p ∈ obsL, Obs.fros p.2 = normalize_fros (pget (propsOf f) "fros") := by
  simp only [analyze] at h
  split at h
  · cases h
  · split at h
    · cases h
    · split at h
      · cases h
      · injection h with h1 h2
        refine fun p hp => ?_
        rw [← h1] at hp
        cases hl : extract_lonlat f with
        | none =>
            rw [hl] at hp
            simp at hp
        | some ll =>
            obtain ⟨lon, lat⟩ := ll
            cases hts2 : (parse_timestamp ctx (timeChain (propsOf f))).2 with
            | none =>
                rw [hl, hts2] at hp
                simp at hp
            | some te =>
                rw [hl, hts2] at hp
                simp only [List.mem_filterMap] at hp
                obtain ⟨res, hres, hg⟩ := hp
                cases hc : ctx.h3cell lat lon res with
                | none => rw [hc] at hg; simp at hg
                | some cell =>
                    rw [hc] at hg
                    simp only [Option.map_some'] at hg
                    injection hg with hX
                    subst hX
                    rfl

/-- Claim C5: a feature whose FROS property is not parseable as a number, or
parses to a value at most −900, contributes to none of `fros_sum`,
`fros_max`, `fros_count` in any aggregate bucket: the step leaves all
three fields of every bucket unchanged (while the observation may still
update the other fields). -/
theorem fros_sentinel_never_contributes (ctx : Ctx) (cfg : Cfg)
    (st st' : Summary) (f : Feature)
    (hfros : pyFloat (pget (propsOf f) "fros") = none ∨
             ∃ q, pyFloat (pget (propsOf f) "fros") = some q ∧ q ≤ -900)
    (hok : foldOutcome (streamStep ctx cfg st f) = some st') (k : AggKey) :
    frosView (lookupA st' k) = frosView (lookupA st k) := by
  have hnf : normalize_fros (pget (propsOf f) "fros") = none := by
    rcases hfros with hn | ⟨q, hq, hle⟩
    · rw [normalize_fros, hn]
    · rw [normalize_fros, hq]
      simp [hle]
  rw [streamStep] at hok
  cases ha : analyze ctx cfg f with
  | skip =>
      rw [ha] at hok
      simp only [foldOutcome, Option.some.injEq] at hok
      subst hok
      rfl
  | err =>
      rw [ha] at hok
      simp [foldOutcome] at hok
  | emit obsL raw =>
      rw [ha] at hok
      simp only [foldOutcome, Option.some.injEq] at hok
      subst hok
      rw [lookupA_applyAgg]
      apply frosView_foldl_none
      intro o ho
      exact (analyze_emit_fros ctx cfg f obsL raw ha (k, o)
        (mem_selObs k obsL o ho)).trans hnf

/-- A feature carrying the FROS missing-data sentinel −999. -/
def w5F : Feature where
  properties := some [("id_fire_event", .str "F9"), ("frp", .num 2),
                      ("fros", .num (-999)), ("time", .str "1000")]
  geometry := wGeom

/-- The summary after processing it from an empty table. -/
def w5St : Summary := (foldOutcome (streamStep testCtx cfgW [] w5F)).getD []

theorem fros_sentinel_never_contributes_witness :
    frosView (lookupA w5St wKey) = frosView (lookupA ([] : Summary) wKey) ∧
    (lookupA w5St wKey).map Aggregate.count = some 1 := by
  have h1 : foldOutcome (streamStep testCtx cfgW [] w5F) = some w5St := by decide!
  exact ⟨fros_sentinel_never_contributes testCtx cfgW [] w5St w5F
    (Or.inr ⟨-999, by decide!, by decide!⟩) h1 wKey, by decide!⟩

theorem Validate.vins_preserves_eq (ctx : Ctx) (lat lon : ℚ) (day : ℤ)
    (a : Finset Validate.VKey × Finset Validate.VKey) (res : ℕ)
    (h : a.1 = a.2) :
    (Validate.vins ctx lat lon day a res).1 = (Validate.vins ctx lat lon day a res).2 := by
  rw [Validate.vins]
  cases ctx.h3cell lat lon res with
  | none => exact h
  | some cell => simp [h]

theorem Validate.foldl_vins_preserves_eq (ctx : Ctx) (lat lon : ℚ) (day : ℤ)
    (rs : List ℕ) (acc : Finset Validate.VKey × Finset Validate.VKey)
    (h : acc.1 = acc.2) :
    (rs.foldl (Validate.vins ctx lat lon day) acc).1 =
    (rs.foldl (Validate.vins ctx lat lon day) acc).2 := by
  induction rs generalizing acc with
  | nil => exact h
  | cons r rest ih =>
      rw [List.foldl_cons]
      exact ih _ (Validate.vins_preserves_eq ctx lat lon day acc r h)

theorem Validate.vstep_preserves_eq (ctx : Ctx)
    (acc : Finset Validate.VKey × Finset Validate.VKey) (f : Feature)
    (h : acc.1 = acc.2) :
    (Validate.vstep ctx acc f).1 = (Validate.vstep ctx acc f).2 := by
  rw [Validate.vstep]
  by_cases hk : hasKey (propsOf f) "id_fire_event"
  · simp only [hk, Bool.not_true, Bool.false_eq_true, if_false]
    cases Validate.parse_timestamp ctx
        (pyOr (pget (propsOf f) "time") (pget (propsOf f) "timestamp")) with
    | none => exact h
    | some ts =>
        cases Validate.representative_lonlat f.geometry with
        | none => exact h
        | some ll =>
            obtain ⟨lon, lat⟩ := ll
            exact Validate.foldl_vins_preserves_eq ctx lat lon _ _ acc h
  · simp only [hk, Bool.not_false, if_true]
    exact h

theorem Validate.vrun_components_eq (ctx : Ctx) (fs : List Feature) :
    (Validate.vrun ctx fs).1 = (Validate.vrun ctx fs).2 := by
  rw [Validate.vrun]
  have main : ∀ acc : Finset Validate.VKey × Finset Validate.VKey, acc.1 = acc.2 →
      (fs.foldl (Validate.vstep ctx) acc).1 = (fs.foldl (Validate.vstep ctx) acc).2 := by
    induction fs with
    | nil => exact fun acc h => h
    | cons f rest ih =>
        intro acc h
        rw [List.foldl_cons]
        exact ih _ (Validate.vstep_preserves_eq ctx acc f h)
  exact main (∅, ∅) rfl

/-- Claim C6 as amended: the coverage validator derives `agg_cells` and
`raw_cells_all` from the same raw features by identical insertions, so
`missing` is always empty and the validation exit status is always the
success value 0 — it cannot report a missing bucket, with or without the
synthetic raw feature. -/
theorem coverage_validator_always_passes (ctx : Ctx) (fs : List Feature) :
    Validate.vmissing ctx fs = ∅ ∧ Validate.vexit ctx fs = 0 := by
  have h : Validate.vmissing ctx fs = ∅ := by
    rw [Validate.vmissing, Validate.vrun_components_eq ctx fs, Finset.sdiff_self]
  exact ⟨h, by rw [Validate.vexit, if_pos h]⟩

/-- A synthetic raw feature for the coverage check. -/
def vF : Feature where
  properties := some [("id_fire_event", .str "1"), ("time", .str "1000")]
  geometry := wGeom

/-- Counterexample to claim C6: with the synthetic raw feature present the
validator reports zero missing buckets and succeeds (as the claim says),
but after removing the raw feature it still reports zero missing buckets
and succeeds — not the "exactly one missing bucket" failure the claim
requires, because the validator recomputes the aggregate-eligible set
from the same raw features it is checking. -/
theorem coverage_validator_counterexample :
    Validate.vexit testCtx [vF] = 0 ∧
    (Validate.vrun testCtx [vF]).1.card = 4 ∧
    (Validate.vmissing testCtx []).card = 0 ∧
    Validate.vexit testCtx [] = 0 ∧ ¬ (0 : ℕ) = 1 := by
  refine ⟨by decide!, by decide!, by decide!, by decide!, by decide!⟩

theorem map_geometry_attach (fid : Option String)
    (range : Option (String × ℚ × String × ℚ)) (l : List Feature) :
    (l.map (attach_file_id fid range)).map Feature.geometry = l.map Feature.geometry := by
  induction l with
  | nil => rfl
  | cons f rest ih => simp [attach_file_id_geometry, ih]

/-- Claim C7: for a readable source file whose CRS declaration is absent, does
not match the `EPSG::?(\d+)` pattern, or declares EPSG 4326, the
iteration yields every feature with its geometry coordinates exactly as
in the input (only the id/time-range attachment may touch properties),
and the pattern mismatch is not an error: the file is processed normally. -/
theorem crs_noop_passthrough (ctx : Ctx) (file : SourceFile)
    (hp : file.parsed = true)
    (h : crsNameOf file.crs = none ∨
         ∃ s, crsNameOf file.crs = some s ∧
           (epsgSearch s.toList = none ∨ epsgSearch s.toList = some 4326)) :
    iter_file ctx file = .ok (file.features.map
      (attach_file_id (idOfName file.name) (compute_time_floor_range ctx file.features))) ∧
    (file.features.map (attach_file_id (idOfName file.name)
      (compute_time_floor_range ctx file.features))).map Feature.geometry =
      file.features.map Feature.geometry := by
  have ht : build_transformer ctx (crsNameOf file.crs) = none :=
    build_transformer_none ctx _ h
  constructor
  · rw [iter_file, hp]
    simp only [Bool.not_true, Bool.false_eq_true, if_false]
    rw [ht]
    exact seqFeatures_map_ok file.features
      (attach_file_id (idOfName file.name) (compute_time_floor_range ctx file.features))
  · exact map_geometry_attach _ _ _

/-- A source file declaring EPSG:4326 explicitly. -/
def wFile7 : SourceFile where
  name := "gdf_7.geojson"
  parsed := true
  crs := .strv "EPSG:4326"
  features := [{ properties := some [("frp", .num 3)], geometry := wGeom }]

theorem crs_noop_passthrough_witness :
    iter_file testCtx wFile7 = .ok (wFile7.features.map
      (attach_file_id (idOfName wFile7.name)
        (compute_time_floor_range testCtx wFile7.features))) ∧
    (wFile7.features.map (attach_file_id (idOfName wFile7.name)
      (compute_time_floor_range testCtx wFile7.features))).map Feature.geometry =
      wFile7.features.map Feature.geometry := by
  exact crs_noop_passthrough testCtx wFile7 rfl
    (Or.inr ⟨"EPSG:4326", rfl, Or.inr rfl⟩)

/-- A stats-table entry carrying only a start time. -/
def c8Stats : StatsEntry where
  time_start := some "TBL"
  time_end := none
  time_start_ts := none
  time_end_ts := none

/-- A feature that populates `time_min` itself but has no `time_min_ts`. -/
def c8F : Feature where
  properties := some [("id_fire_event", .str "F1"), ("time_min", .str "OWN")]
  geometry := none

/-- Raw pass-through configuration with a stats table for entity `F1`. -/
def cfg8 : Cfg where
  h3_res := 3
  low_zoom_max := 4
  high_zoom_min := 5
  include_raw := true
  start_ts := none
  end_ts := none
  stats_map := [("F1", c8Stats)]

/-- Counterexample to claim C8: the feature's own properties populate `time_min`
with "OWN", yet the emitted raw record carries the table value "TBL":
the overlay guard checks only that `time_min_ts` is absent, so a
populated `time_min` is overwritten by the stats-table entry. -/
theorem overlay_overwrites_populated_time_min :
    pget (propsOf c8F) "time_min" = .str "OWN" ∧
    (foldRaws (streamStep testCtx cfg8 [] c8F)).map
      (fun g => pget (propsOf g) "time_min") = [.str "TBL"] ∧
    PVal.str "TBL" ≠ PVal.str "OWN" := by
  refine ⟨rfl, rfl, by decide⟩


theorem tippecanoe_time_stage_pget (ctx : Ctx) (props : Props) (fld : String)
    (h1 : fld ≠ "time_ts") (h2 : fld ≠ "time") :
    pget (tippecanoe_time_stage ctx props) fld = pget props fld := by
  rw [tippecanoe_time_stage]
  split
  · dsimp only
    split
    · rw [pget_pset_ne _ _ _ _ h2, pget_pset_ne _ _ _ _ h1]
    · rw [pget_pset_ne _ _ _ _ h1]
  · rfl

theorem tippecanoe_time_stage_hasKey (ctx : Ctx) (props : Props) (fld : String)
    (h1 : fld ≠ "time_ts") (h2 : fld ≠ "time") :
    hasKey (tippecanoe_time_stage ctx props) fld = hasKey props fld := by
  rw [tippecanoe_time_stage]
  split
  · dsimp only
    split
    · rw [hasKey_pset_other _ _ _ _ h2, hasKey_pset_other _ _ _ _ h1]
    · rw [hasKey_pset_other _ _ _ _ h1]
  · rfl

theorem tippecanoe_stats_stage_skip (stats : Option StatsEntry) (props : Props)
    (h : hasKey props "time_min_ts" = true) :
    tippecanoe_stats_stage stats props = props := by
  cases stats with
  | none => rfl
  | some st0 => simp [tippecanoe_stats_stage, h]

/-- Claim C8 as amended: the overlay guard is the absence of the single key
`time_min_ts`, not a per-field check: whenever the feature's properties
already contain `time_min_ts`, none of the four time-range fields is
touched and each is emitted with the feature's own value; when
`time_min_ts` is absent, table values are written field-by-field and may
overwrite `time_min`, `time_max` or `time_max_ts` values the feature
itself populated. -/
theorem overlay_only_when_time_min_ts_absent (ctx : Ctx) (f : Feature)
    (minzoom : ℕ) (stats : Option StatsEntry)
    (hkey : hasKey (propsOf f) "time_min_ts" = true) :
    ∀ fld ∈ (["time_min", "time_max", "time_min_ts", "time_max_ts"] : List String),
      pget (propsOf (add_tippecanoe_minzoom ctx f minzoom stats)) fld =
      pget (propsOf f) fld := by
  intro fld hfld
  have hfld' : fld = "time_min" ∨ fld = "time_max" ∨ fld = "time_min_ts" ∨
      fld = "time_max_ts" := by simpa using hfld
  have hne1 : fld ≠ "time_ts" := by rcases hfld' with rfl | rfl | rfl | rfl <;> decide
  have hne2 : fld ≠ "time" := by rcases hfld' with rfl | rfl | rfl | rfl <;> decide
  have hne3 : fld ≠ "tippecanoe" := by rcases hfld' with rfl | rfl | rfl | rfl <;> decide
  have hkey1 : hasKey (tippecanoe_time_stage ctx (propsOf f)) "time_min_ts" = true := by
    rw [tippecanoe_time_stage_hasKey ctx (propsOf f) "time_min_ts" (by decide) (by decide)]
    exact hkey
  show pget (pset (tippecanoe_stats_stage stats (tippecanoe_time_stage ctx (propsOf f)))
      "tippecanoe" (.zoomHint minzoom none)) fld = pget (propsOf f) fld
  rw [pget_pset_ne _ _ _ _ hne3, tippecanoe_stats_stage_skip stats _ hkey1,
    tippecanoe_time_stage_pget ctx (propsOf f) fld hne1 hne2]

/-- A feature that already populates all four time-range fields. -/
def w8F : Feature where
  properties := some [("id_fire_event", .str "F1"), ("time_min", .str "OWNMIN"),
                      ("time_max", .str "OWNMAX"), ("time_min_ts", .num 11),
                      ("time_max_ts", .num 22)]
  geometry := none

theorem overlay_only_when_time_min_ts_absent_witness :
    pget (propsOf (add_tippecanoe_minzoom testCtx w8F 5 (some c8Stats))) "time_min" =
      pget (propsOf w8F) "time_min" ∧
    pget (propsOf w8F) "time_min" = .str "OWNMIN" := by
  refine ⟨overlay_only_when_time_min_ts_absent testCtx w8F 5 (some c8Stats) rfl
    "time_min" (by decide), rfl⟩

/-- A feature whose FRP property is a non-numeric string. -/
def c9F : Feature where
  properties := some [("id_fire_event", .str "F1"), ("frp", .str "abc"),
                      ("fros", .str "abc"), ("time", .str "1000")]
  geometry := wGeom

/-- Claim C9 at its failing input: `float(props.get("frp") or 0.0)` on the unparseable FRP string
"abc" raises an uncaught exception and the run aborts (modelled as
`Except.error`), even though the identically malformed FROS value is
handled silently by `normalize_fros` — the feature is not excluded from
just the affected computation, contrary to the error-handling design. -/
theorem invalid_frp_aborts_run :
    streamStep testCtx cfgW [] c9F = .error () ∧
    normalize_fros (.str "abc") = none := by
  exact ⟨rfl, rfl⟩

/-- A source file whose name does not match `gdf_<digits>.geojson`. -/
def wFile10 : SourceFile where
  name := "slice_01.geojson"
  parsed := true
  crs := .absent
  features := [{ properties := some [("frp", .num 1), ("time", .str "1000")],
                 geometry := wGeom }]

/-- Claim C10: a feature with no `id_fire_event` key, from a file whose name
does not encode an entity id, produces nothing: the step neither updates
any aggregate nor emits a raw record, even with raw output enabled and
valid geometry and timestamp. -/
theorem no_entity_id_emits_nothing (ctx : Ctx) (cfg : Cfg) (st : Summary)
    (file : SourceFile) (f f' : Feature)
    (hname : idOfName file.name = none)
    (hkey : hasKey (propsOf f) "id_fire_event" = false)
    (hp : process_one (build_transformer ctx (crsNameOf file.crs)) (idOfName file.name)
            (compute_time_floor_range ctx file.features) f = .ok f') :
    streamStep ctx cfg st f' = .ok (st, []) := by
  rw [hname] at hp
  have hprops : propsOf f' = propsOf f := by
    cases ht : build_transformer ctx (crsNameOf file.crs) with
    | none =>
        rw [ht] at hp
        simp only [process_one] at hp
        have heq : attach_file_id none (compute_time_floor_range ctx file.features) f = f' := by
          injection hp
        rw [← heq]
        rfl
    | some tr =>
        rw [ht] at hp
        simp only [process_one] at hp
        cases hg : (attach_file_id none (compute_time_floor_range ctx file.features) f).geometry with
        | none =>
            simp only [hg] at hp
            have heq : attach_file_id none (compute_time_floor_range ctx file.features) f = f' := by
              injection hp
            rw [← heq]
            rfl
        | some g =>
            simp only [hg] at hp
            cases htr : transform_geometry tr g with
            | none => simp only [htr] at hp; cases hp
            | some g' =>
                simp only [htr] at hp
                have heq : ({ attach_file_id none (compute_time_floor_range ctx file.features) f
                    with geometry := some g' } : Feature) = f' := by
                  injection hp
                rw [← heq]
                rfl
  have hid : pget (propsOf f') "id_fire_event" = .null := by
    rw [hprops]
    exact pget_of_hasKey_false _ _ hkey
  simp only [streamStep, analyze, hid]

theorem no_entity_id_emits_nothing_witness :
    streamStep testCtx cfg8 [] (wFile10.features.headD c9F) = .ok ([], []) := by
  have hp : process_one (build_transformer testCtx (crsNameOf wFile10.crs))
      (idOfName wFile10.name) (compute_time_floor_range testCtx wFile10.features)
      (wFile10.features.headD c9F) = .ok (wFile10.features.headD c9F) := rfl
  exact no_entity_id_emits_nothing testCtx cfg8 [] wFile10
    (wFile10.features.headD c9F) (wFile10.features.headD c9F) rfl rfl hp
